import Mathlib

/-!
Verification of the geometric helper functions in
`cgt/util/scenegraphitems.py` and of the change-flag behaviour of
`cgt/model/cgtproject.py` of the CrystalGrowthTracker repository.

Python floats are modelled as exact rational numbers (`ℚ`); in this
exact model every value is finite, which the predicate `isfinite`
records.  The one function whose arithmetic is genuinely irrational,
`make_arrow_head` (it calls `sqrt` through `QLineF.length`), is
modelled over the real numbers.  Python exceptions are modelled with
`Except`.
-/

/-- Exceptions raised by the Python code: `ZeroDivisionError` and
`ArithmeticError` (the latter carries its message). -/
inductive PyError where
  | zeroDivision
  | arithmeticError (msg : String)
  deriving DecidableEq

/-- Model of `math.isfinite` on the exact-rational model of Python
floats: a rational number is always finite (there is no NaN or
infinity in exact arithmetic). -/
def isfinite (_ : ℚ) : Bool := true

/-- Model of Qt's `QLineF`: an ordered pair of 2-D points with
rational coordinates. -/
structure QLineF where
  p1 : ℚ × ℚ
  p2 : ℚ × ℚ
  deriving DecidableEq

/-- Model of Python's `/` on floats: raises `ZeroDivisionError` when
the divisor is zero, otherwise divides. -/
def pyDiv (a b : ℚ) : Except PyError ℚ :=
  if b = 0 then .error .zeroDivision else .ok (a / b)

/-- Model of Python's `int()` applied to a number: truncation toward
zero. -/
def pyInt (q : ℚ) : ℤ := if 0 ≤ q then ⌊q⌋ else ⌈q⌉

/-- Embedding of `difference_to_distance` from
`cgt/util/scenegraphitems.py`: an `ImageLineDifference` is represented
by its `average` field, the only one the code reads. -/
structure ImageLineDifference where
  average : ℚ
  deriving DecidableEq

def difference_to_distance (difference : ImageLineDifference) (scale : ℚ) : ℚ :=
  difference.average * scale

/-- Embedding of `difference_list_to_velocities` from
`cgt/util/scenegraphitems.py`.  Each list entry is processed in order:
`distance = difference_to_distance diff scale`, `time = frames / fps`,
`velocity = distance / time`, and the absolute value is appended.
Either division raises `ZeroDivisionError` when its divisor is zero,
exactly as in Python. -/
def difference_list_to_velocities (diff_list : List (ℚ × ImageLineDifference))
    (scale fps : ℚ) : Except PyError (List ℚ) :=
  match diff_list with
  | [] => .ok []
  | (frames, diff) :: rest => do
      let distance := difference_to_distance diff scale
      let time ← pyDiv frames fps
      let velocity ← pyDiv distance time
      let velocities ← difference_list_to_velocities rest scale fps
      pure ((if velocity < 0 then -velocity else velocity) :: velocities)

/-- Embedding of `cgt_intersection` from
`cgt/util/scenegraphitems.py`.  The Qt point arithmetic
(`+`, `-`, scalar `*`) is componentwise on `ℚ × ℚ`. -/
def cgt_intersection (centred_normal clone : QLineF) :
    Except PyError ((ℚ × ℚ) × Option QLineF) :=
  let a := centred_normal.p2 - centred_normal.p1
  let b := clone.p1 - clone.p2
  let c := centred_normal.p1 - clone.p1
  let denominator := a.2 * b.1 - a.1 * b.2
  if denominator = 0 ∨ isfinite denominator = false then
    .error (.arithmeticError "Clone line is parallel to parent")
  else
    let reciprocal := 1 / denominator
    let na := (b.2 * c.1 - b.1 * c.2) * reciprocal
    let intersection := centred_normal.p1 + na • a
    let nb := (a.1 * c.2 - a.2 * c.1) * reciprocal
    let extension : Option QLineF :=
      if nb < 0 then some ⟨clone.p1, intersection⟩
      else if nb > 1 then some ⟨clone.p2, intersection⟩
      else none
    .ok (intersection, extension)

/-- Denominator `a.y * b.x - a.x * b.y` of `cgt_intersection`, with
`a = N.p2 - N.p1` and `b = C.p1 - C.p2`, as named by the spec. -/
def denominatorOf (n c : QLineF) : ℚ :=
  (n.p2 - n.p1).2 * (c.p1 - c.p2).1 - (n.p2 - n.p1).1 * (c.p1 - c.p2).2

/-- Parametric position `nb` of the intersection point along the clone
segment, as defined by the spec's description of the algorithm. -/
def nbOf (n c : QLineF) : ℚ :=
  ((n.p2 - n.p1).1 * (n.p1 - c.p1).2 - (n.p2 - n.p1).2 * (n.p1 - c.p1).1)
    / denominatorOf n c

/-- Embedding of `make_positive_rect` from
`cgt/util/scenegraphitems.py`; a `QRectF` is stored as
`(x, y, width, height)` with rational coordinates. -/
structure QRectF where
  x : ℚ
  y : ℚ
  w : ℚ
  h : ℚ
  deriving DecidableEq

def make_positive_rect (corner opposite_corner : ℚ × ℚ) : QRectF :=
  { x := min opposite_corner.1 corner.1
    y := min opposite_corner.2 corner.2
    w := |opposite_corner.1 - corner.1|
    h := |opposite_corner.2 - corner.2| }

/-- Model of Qt's integer `QRect`, stored as `(x, y, width, height)`. -/
structure QRect where
  x : ℤ
  y : ℤ
  w : ℤ
  h : ℤ
  deriving DecidableEq

/-- Model of `QRectF.toAlignedRect`: the smallest integer-aligned
rectangle containing the rectangle (Qt computes
`xmin = floor x`, `xmax = ceil (x + w)` and analogously in `y`). -/
def QRectF.toAlignedRect (r : QRectF) : QRect :=
  let xmin := ⌊r.x⌋
  let xmax := ⌈r.x + r.w⌉
  let ymin := ⌊r.y⌋
  let ymax := ⌈r.y + r.h⌉
  ⟨xmin, ymin, xmax - xmin, ymax - ymin⟩

/-- Model of Qt's `qRound` (used by `QPointF.toPoint`): round half away
from zero. -/
def qRound (q : ℚ) : ℤ := if 0 ≤ q then ⌊q + 1 / 2⌋ else ⌈q - 1 / 2⌉

/-- Model of `QRect.translate`. -/
def QRect.translate (r : QRect) (p : ℤ × ℤ) : QRect :=
  ⟨r.x + p.1, r.y + p.2, r.w, r.h⟩

/-- Model of `QRect.setWidth`: the right edge moves, the left does
not. -/
def QRect.setWidth (r : QRect) (width : ℤ) : QRect := { r with w := width }

/-- Model of `QRect.setHeight`: the bottom edge moves, the top does
not. -/
def QRect.setHeight (r : QRect) (height : ℤ) : QRect := { r with h := height }

/-- Translation of a rational rectangle, used to state containment of
the scene-space rectangle. -/
def QRectF.translated (r : QRectF) (p : ℚ × ℚ) : QRectF :=
  ⟨r.x + p.1, r.y + p.2, r.w, r.h⟩

/-- Embedding of `get_rect_even_dimensions` from
`cgt/util/scenegraphitems.py`.  The `QGraphicsRectItem` argument is
represented by its rectangle `rect` and its position `pos`. -/
def get_rect_even_dimensions (rect : QRectF) (pos : ℚ × ℚ)
    (even_dimensions : Bool) : QRect :=
  let r0 := (QRectF.toAlignedRect rect).translate (qRound pos.1, qRound pos.2)
  let width := r0.w
  let height := r0.h
  if !even_dimensions then r0
  else
    let r1 := if width % 2 = 1 then r0.setWidth (width + 1) else r0
    let r2 := if height % 2 = 1 then r1.setHeight (height + 1) else r1
    r2

/-- Containment of a rational rectangle in an integer rectangle, read
as real-coordinate regions `[x, x + w] × [y, y + h]`. -/
def rect_covers (r : QRect) (s : QRectF) : Prop :=
  (r.x : ℚ) ≤ s.x ∧ s.x + s.w ≤ (r.x : ℚ) + r.w ∧
    (r.y : ℚ) ≤ s.y ∧ s.y + s.h ≤ (r.y : ℚ) + r.h

instance (r : QRect) (s : QRectF) : Decidable (rect_covers r s) := by
  unfold rect_covers; infer_instance

/-- Marker types stored under `ItemDataTypes.ITEM_TYPE`
(`cgt/util/markers.py`). -/
inductive MarkerTypes where
  | POINT
  | LINE
  deriving DecidableEq

/-- Element of a `QPainterPath`: the only operations
`make_cross_path` uses. -/
inductive PathElement where
  | moveTo (p : ℚ × ℚ)
  | lineTo (p : ℚ × ℚ)
  deriving DecidableEq

/-- Embedding of `make_cross_path` from
`cgt/util/scenegraphitems.py`. -/
def make_cross_path (point : ℚ × ℚ) : List PathElement :=
  let up_right : ℚ × ℚ := (10, 10)
  let up_left : ℚ × ℚ := (-10, 10)
  [ .moveTo point, .lineTo (point + up_right),
    .moveTo point, .lineTo (point + up_left),
    .moveTo point, .lineTo (point - up_right),
    .moveTo point, .lineTo (point - up_left) ]

/-- Model of a `QGraphicsPathItem` carrying a point marker: the path,
the scene position, and the data entries the code stores
(`ITEM_TYPE`, `FRAME_NUMBER`, `REGION_INDEX`, `CROSS_CENTRE`).  The
pen and z-value are pure rendering state, read by no claim, and are
omitted. -/
structure QGraphicsPathItem where
  path : List PathElement
  pos : ℚ × ℚ
  item_type : MarkerTypes
  frame : ℤ
  region : ℤ
  cross_centre : ℚ × ℚ
  deriving DecidableEq

/-- Model of a `QGraphicsLineItem` carrying a line marker. -/
structure QGraphicsLineItem where
  line : QLineF
  pos : ℚ × ℚ
  item_type : MarkerTypes
  frame : ℤ
  region : ℤ
  deriving DecidableEq

/-- Embedding of `g_point_to_tuple` from
`cgt/util/scenegraphitems.py`: `[cx, cy, px, py, frame, region]`.
Python compares `int` and `float` numerically, so the mixed-type list
is modelled as a list of rationals. -/
def g_point_to_tuple (point : QGraphicsPathItem) : List ℚ :=
  [point.cross_centre.1, point.cross_centre.2,
   point.pos.1, point.pos.2, (point.frame : ℚ), (point.region : ℚ)]

/-- Embedding of `g_line_to_tuple` from
`cgt/util/scenegraphitems.py`: `[x1, y1, x2, y2, px, py, frame,
region]`. -/
def g_line_to_tuple (line : QGraphicsLineItem) : List ℚ :=
  [line.line.p1.1, line.line.p1.2, line.line.p2.1, line.line.p2.2,
   line.pos.1, line.pos.2, (line.frame : ℚ), (line.region : ℚ)]

/-- Embedding of `list_to_g_point` from
`cgt/util/scenegraphitems.py`: reads fields 1..6 of
`[ID, x, y, pos_x, pos_y, frame, region]` (a shorter list raises in
Python, modelled by `none`). -/
def list_to_g_point (point : List ℚ) : Option QGraphicsPathItem :=
  match point with
  | _id :: cx :: cy :: px :: py :: frame :: region :: _ =>
      some { path := make_cross_path (cx, cy)
             pos := (px, py)
             item_type := .POINT
             frame := pyInt frame
             region := pyInt region
             cross_centre := (cx, cy) }
  | _ => none

/-- Embedding of `list_to_g_line` from
`cgt/util/scenegraphitems.py`: reads fields 1..8 of
`[ID, x1, y1, x2, y2, pos_x, pos_y, frame, region]`. -/
def list_to_g_line (line : List ℚ) : Option QGraphicsLineItem :=
  match line with
  | _id :: x1 :: y1 :: x2 :: y2 :: px :: py :: frame :: region :: _ =>
      some { line := ⟨(x1, y1), (x2, y2)⟩
             pos := (px, py)
             item_type := .LINE
             frame := pyInt frame
             region := pyInt region }
  | _ => none

/-- Real-valued model of `QLineF`, used for `make_arrow_head`, whose
arithmetic involves `sqrt`. -/
structure RLineF where
  p1 : ℝ × ℝ
  p2 : ℝ × ℝ

/-- Model of `QLineF.length`: `sqrt (dx * dx + dy * dy)`. -/
noncomputable def RLineF.length (l : RLineF) : ℝ :=
  Real.sqrt ((l.p2.1 - l.p1.1) * (l.p2.1 - l.p1.1) +
    (l.p2.2 - l.p1.2) * (l.p2.2 - l.p1.2))

/-- Model of `QLineF.pointAt t`: `p1 + t * (p2 - p1)`. -/
def RLineF.pointAt (l : RLineF) (t : ℝ) : ℝ × ℝ :=
  l.p1 + t • (l.p2 - l.p1)

/-- Model of `QLineF.normalVector`: the perpendicular line
`(p1, p1 + (dy, -dx))` with the same start point and length. -/
def RLineF.normalVector (l : RLineF) : RLineF :=
  ⟨l.p1, l.p1 + (l.p2.2 - l.p1.2, -(l.p2.1 - l.p1.1))⟩

/-- Model of `QLineF.setLength len`: keeps `p1` and rescales the
direction to the requested length; a null line is left unchanged. -/
noncomputable def RLineF.setLength (l : RLineF) (len : ℝ) : RLineF :=
  if l.length = 0 then l else ⟨l.p1, l.p1 + (len / l.length) • (l.p2 - l.p1)⟩

/-- Embedding of `make_arrow_head` from
`cgt/util/scenegraphitems.py`; the returned `QPolygonF` is modelled as
its vertex list. -/
noncomputable def make_arrow_head (line : RLineF) (length_cutoff : ℝ) :
    Option (List (ℝ × ℝ)) :=
  if line.length < length_cutoff then none
  else
    let delta_t := (line.length - 10) / line.length
    let normal := line.normalVector
    let offset := line.pointAt delta_t - line.p1
    let offset_normal : RLineF := ⟨normal.p1 + offset, normal.p2 + offset⟩
    let opposit_normal : RLineF := ⟨offset_normal.p1, offset_normal.pointAt (-1)⟩
    let offset_normal' := offset_normal.setLength 5
    let opposit_normal' := opposit_normal.setLength 5
    some [line.p2, offset_normal'.p2, opposit_normal'.p2]

/-- Perpendicular of a 2-D vector, `(v.y, -v.x)` — the direction Qt's
`normalVector` turns a line into. -/
def perpP (p : ℝ × ℝ) : ℝ × ℝ := (p.2, -p.1)

/-- Dot product on `ℝ × ℝ`, used to state perpendicularity. -/
def dotR (a b : ℝ × ℝ) : ℝ := a.1 * b.1 + a.2 * b.2

/-- Euclidean norm on `ℝ × ℝ`, used to state segment lengths. -/
noncomputable def normR (a : ℝ × ℝ) : ℝ := Real.sqrt (a.1 * a.1 + a.2 * a.2)

/-- Modelled from the spec: `VideoAnalysisResultsStore`
(`cgt/videoanalysisresultsstore.py` is not part of the excerpt; the
doc string of `CGTProject` names it as the type of the `results`
entry, and `CGTProject.reset_changed` / `has_been_changed` rely only
on its own changed flag, its `reset_changed` clearing that flag and
its `has_been_changed` reporting it). -/
structure VideoAnalysisResultsStore where
  changed : Bool
  deriving DecidableEq

def VideoAnalysisResultsStore.has_been_changed
    (r : VideoAnalysisResultsStore) : Bool := r.changed

def VideoAnalysisResultsStore.reset_changed
    (_ : VideoAnalysisResultsStore) : VideoAnalysisResultsStore :=
  ⟨false⟩

/-- Values stored in the `CGTProject` dictionary: `None`, strings,
booleans, or the results store (only the shapes the excerpt puts into
the dictionary). -/
inductive CGTValue where
  | noneV
  | strV (s : String)
  | boolV (b : Bool)
  | resultsV (r : VideoAnalysisResultsStore)
  deriving DecidableEq

/-- State of a `CGTProject` (`cgt/model/cgtproject.py`): the `_changed`
flag and the key-value entries; lookup takes the most recent binding,
so prepending models dictionary assignment. -/
structure CGTProject where
  changed : Bool
  items : List (String × CGTValue)
  deriving DecidableEq

/-- Embedding of `CGTProject.__setitem__`: stores the value and sets
the changed flag. -/
def CGTProject.setItem (p : CGTProject) (key : String) (v : CGTValue) :
    CGTProject :=
  { changed := true, items := (key, v) :: p.items }

/-- The `results` entry, when present and holding a store (Python's
`self["results"] is None` test distinguishes exactly this case). -/
def CGTProject.getResults (p : CGTProject) :
    Option VideoAnalysisResultsStore :=
  match p.items.lookup "results" with
  | some (.resultsV r) => some r
  | _ => none

/-- Embedding of `CGTProject.__init__`: the changed flag starts
`False`, then every default key is assigned through the overridden
`__setitem__`, in source order. -/
def CGTProject.init : CGTProject :=
  let p : CGTProject := { changed := false, items := [] }
  let p := p.setItem "prog" .noneV
  let p := p.setItem "description" .noneV
  let p := p.setItem "start_datetime" .noneV
  let p := p.setItem "host" .noneV
  let p := p.setItem "ip_address" .noneV
  let p := p.setItem "operating_system" .noneV
  let p := p.setItem "enhanced_video" .noneV
  let p := p.setItem "raw_video" .noneV
  let p := p.setItem "proj_name" .noneV
  let p := p.setItem "proj_full_path" .noneV
  let p := p.setItem "notes" .noneV
  let p := p.setItem "results" .noneV
  let p := p.setItem "enhanced_video_path" .noneV
  let p := p.setItem "enhanced_video_no_path" .noneV
  let p := p.setItem "enhanced_video_no_extension" .noneV
  let p := p.setItem "raw_video_path" .noneV
  let p := p.setItem "raw_video_no_path" .noneV
  let p := p.setItem "raw_video_no_extension" .noneV
  let p := p.setItem "stats_from_enhanced" (.boolV false)
  let p := p.setItem "start_user" .noneV
  let p := p.setItem "frame_rate" .noneV
  let p := p.setItem "resolution" .noneV
  let p := p.setItem "resolution_units" .noneV
  let p := p.setItem "latest_report" .noneV
  p

/-- Embedding of `CGTProject.set_changed`. -/
def CGTProject.set_changed (p : CGTProject) : CGTProject :=
  { p with changed := true }

/-- Reset of a stored value: when it is a results store, reset its
changed flag; any other value is untouched. -/
def CGTValue.resetResults : CGTValue → CGTValue
  | .resultsV r => .resultsV r.reset_changed
  | v => v

/-- Embedding of `CGTProject.reset_changed`: clears the flag and, when
a results store is present, resets it in place (plain mutation of the
stored object, not a dictionary assignment). -/
def CGTProject.reset_changed (p : CGTProject) : CGTProject :=
  { changed := false
    items := p.items.map fun kv =>
      if kv.1 = "results" then (kv.1, kv.2.resetResults) else kv }

/-- Embedding of `CGTProject.has_been_changed`. -/
def CGTProject.has_been_changed (p : CGTProject) : Bool :=
  match p.getResults with
  | none => p.changed
  | some r => p.changed || r.has_been_changed

/-- Mutating operations of the `CGTProject` interface, used to state
that only `reset_changed` produces an unchanged-reporting state. -/
inductive CGTOp where
  | setIt (key : String) (v : CGTValue)
  | setCh
  | resetCh
  deriving DecidableEq

def CGTProject.applyOp (op : CGTOp) (p : CGTProject) : CGTProject :=
  match op with
  | .setIt k v => p.setItem k v
  | .setCh => p.set_changed
  | .resetCh => p.reset_changed

section helperLemmas

theorem pyInt_intCast (z : ℤ) : pyInt (z : ℚ) = z := by
  unfold pyInt
  split_ifs <;> simp

theorem qRound_intCast (z : ℤ) : qRound (z : ℚ) = z := by
  unfold qRound
  split_ifs with h
  · rw [Int.floor_int_add]
    norm_num
  · rw [sub_eq_add_neg, add_comm, Int.ceil_add_int]
    have hneg : ⌈-(1 / 2 : ℚ)⌉ = -⌊(1 / 2 : ℚ)⌋ := Int.ceil_neg
    rw [hneg]
    norm_num

theorem ite_neg_eq_abs (v : ℚ) : (if v < 0 then -v else v) = |v| := by
  split_ifs with h
  · exact (abs_of_neg h).symm
  · exact (abs_of_nonneg (not_lt.mp h)).symm

end helperLemmas

/-- Claim C4: for `N` the segment from `(0,0)` to `(0,10)` and `C` the
segment from `(-5,5)` to `(5,5)`, `cgt_intersection N C` returns the
intersection point `(0,5)` and no extension segment. -/
theorem cgt_intersection_example :
    cgt_intersection ⟨(0, 0), (0, 10)⟩ ⟨(-5, 5), (5, 5)⟩ = .ok ((0, 5), none) := by
  norm_num [cgt_intersection, isfinite, Prod.mk_sub_mk, Prod.mk_add_mk,
    Prod.smul_mk]

/-- Claim C2: `cgt_intersection N C` raises `ArithmeticError` (the
parallel-lines fault) exactly when the denominator
`a.y * b.x - a.x * b.y` (with `a = N.p2 - N.p1`, `b = C.p1 - C.p2`)
is zero or not finite; in the exact-rational model of the floats every
value is finite.  In particular the parallel pair
`N = (0,0)-(0,10)`, `C = (1,0)-(1,10)` raises it. -/
theorem cgt_intersection_parallel_iff :
    (∀ N C : QLineF,
      (cgt_intersection N C =
          .error (.arithmeticError "Clone line is parallel to parent")) ↔
        (denominatorOf N C = 0 ∨ isfinite (denominatorOf N C) = false)) ∧
    cgt_intersection ⟨(0, 0), (0, 10)⟩ ⟨(1, 0), (1, 10)⟩ =
      .error (.arithmeticError "Clone line is parallel to parent") := by
  constructor
  · intro N C
    simp only [cgt_intersection, denominatorOf]
    split_ifs with h
    · exact iff_of_true rfl h
    · exact iff_of_false (by simp) h
  · norm_num [cgt_intersection, isfinite, Prod.mk_sub_mk]

/-- Witness for C2: another parallel pair raises the fault, obtained
from the iff at a concrete input. -/
theorem cgt_intersection_parallel_iff_witness :
    cgt_intersection ⟨(0, 0), (0, 10)⟩ ⟨(2, 0), (2, 10)⟩ =
      .error (.arithmeticError "Clone line is parallel to parent") :=
  (cgt_intersection_parallel_iff.1 _ _).mpr
    (Or.inl (by norm_num [denominatorOf, Prod.mk_sub_mk]))

/-- Claim C7: `make_positive_rect` is symmetric in its two corners and
returns the rectangle with `width = |dx| ≥ 0`, `height = |dy| ≥ 0` and
top-left corner at the componentwise minimum. -/
theorem make_positive_rect_spec (c1 c2 : ℚ × ℚ) :
    make_positive_rect c1 c2 = make_positive_rect c2 c1 ∧
    (make_positive_rect c1 c2).w = |c2.1 - c1.1| ∧
    (make_positive_rect c1 c2).h = |c2.2 - c1.2| ∧
    0 ≤ (make_positive_rect c1 c2).w ∧
    0 ≤ (make_positive_rect c1 c2).h ∧
    (make_positive_rect c1 c2).x = min c1.1 c2.1 ∧
    (make_positive_rect c1 c2).y = min c1.2 c2.2 := by
  unfold make_positive_rect
  refine ⟨?_, rfl, rfl, abs_nonneg _, abs_nonneg _, min_comm _ _, min_comm _ _⟩
  simp only [QRectF.mk.injEq]
  exact ⟨min_comm _ _, min_comm _ _, abs_sub_comm _ _, abs_sub_comm _ _⟩

/-- Counterexample to C1 as stated: the round trip of the point field
list `[0, 1, 2, 3, 4, 5, 6]` (and of the line field list
`[0, 1, 2, 3, 4, 5, 6, 7, 8]`) does not reproduce the original list —
the leading ID field is dropped by `g_point_to_tuple` /
`g_line_to_tuple`. -/
theorem roundtrip_drops_id_counterexample :
    (list_to_g_point [0, 1, 2, 3, 4, 5, 6]).map g_point_to_tuple ≠
        some [0, 1, 2, 3, 4, 5, 6] ∧
      (list_to_g_line [0, 1, 2, 3, 4, 5, 6, 7, 8]).map g_line_to_tuple ≠
        some [0, 1, 2, 3, 4, 5, 6, 7, 8] := by
  constructor <;> decide

/-- Claim C1, amended: for every valid point field list
`[id, cx, cy, px, py, frame, region]` (with integral frame and region)
the round trip through `list_to_g_point` and `g_point_to_tuple`
reproduces every numeric field except the leading ID, exactly and in
the same flat ordering; likewise for the 9-field line lists through
`list_to_g_line` and `g_line_to_tuple`. -/
theorem roundtrip_reproduces_tail (i cx cy px py x1 y1 x2 y2 pox poy : ℚ)
    (frame region : ℤ) :
    (list_to_g_point [i, cx, cy, px, py, (frame : ℚ), (region : ℚ)]).map
        g_point_to_tuple =
      some [cx, cy, px, py, (frame : ℚ), (region : ℚ)] ∧
    (list_to_g_line
          [i, x1, y1, x2, y2, pox, poy, (frame : ℚ), (region : ℚ)]).map
        g_line_to_tuple =
      some [x1, y1, x2, y2, pox, poy, (frame : ℚ), (region : ℚ)] := by
  constructor <;>
    simp [list_to_g_point, g_point_to_tuple, list_to_g_line, g_line_to_tuple,
      pyInt_intCast]

/-- Claim C3: whenever the denominator is non-zero, `cgt_intersection`
returns an intersection point together with: the extension from
`C.p1` to the intersection when `nb < 0`, the extension from `C.p2`
to the intersection when `nb > 1`, and no extension when
`0 ≤ nb ≤ 1`. -/
theorem cgt_intersection_extension_cases (N C : QLineF)
    (h : denominatorOf N C ≠ 0) :
    ∃ inter : ℚ × ℚ, ∃ ext : Option QLineF,
      cgt_intersection N C = .ok (inter, ext) ∧
      (nbOf N C < 0 → ext = some ⟨C.p1, inter⟩) ∧
      (1 < nbOf N C → ext = some ⟨C.p2, inter⟩) ∧
      (0 ≤ nbOf N C → nbOf N C ≤ 1 → ext = none) := by
  have hnb : ((N.p2 - N.p1).1 * (N.p1 - C.p1).2 -
      (N.p2 - N.p1).2 * (N.p1 - C.p1).1) * (1 / denominatorOf N C) =
      nbOf N C := by
    rw [nbOf, mul_one_div]
  have hcond : ¬((N.p2 - N.p1).2 * (C.p1 - C.p2).1 -
      (N.p2 - N.p1).1 * (C.p1 - C.p2).2 = 0 ∨
      isfinite ((N.p2 - N.p1).2 * (C.p1 - C.p2).1 -
        (N.p2 - N.p1).1 * (C.p1 - C.p2).2) = false) := by
    intro hc
    rcases hc with hc | hc
    · exact h hc
    · simp [isfinite] at hc
  simp only [cgt_intersection, denominatorOf] at *
  rw [if_neg hcond]
  refine ⟨_, _, rfl, ?_, ?_, ?_⟩ <;> rw [hnb] <;> intro h1
  · rw [if_pos h1]
  · rw [if_neg (by linarith), if_pos h1]
  · intro h2
    rw [if_neg (by linarith), if_neg (by linarith)]

/-- Witness for C3 at a concrete non-parallel pair (the intersection
falls before `C.p1`, so the `nb < 0` branch is exercised through the
theorem's conclusion). -/
theorem cgt_intersection_extension_cases_witness :
    denominatorOf ⟨(0, 0), (0, 10)⟩ ⟨(3, 5), (5, 5)⟩ ≠ 0 ∧
    (∃ inter : ℚ × ℚ, ∃ ext : Option QLineF,
      cgt_intersection ⟨(0, 0), (0, 10)⟩ ⟨(3, 5), (5, 5)⟩ = .ok (inter, ext) ∧
      (nbOf ⟨(0, 0), (0, 10)⟩ ⟨(3, 5), (5, 5)⟩ < 0 →
        ext = some ⟨(3, 5), inter⟩) ∧
      (1 < nbOf ⟨(0, 0), (0, 10)⟩ ⟨(3, 5), (5, 5)⟩ →
        ext = some ⟨(5, 5), inter⟩) ∧
      (0 ≤ nbOf ⟨(0, 0), (0, 10)⟩ ⟨(3, 5), (5, 5)⟩ →
        nbOf ⟨(0, 0), (0, 10)⟩ ⟨(3, 5), (5, 5)⟩ ≤ 1 → ext = none)) :=
  ⟨by norm_num [denominatorOf, Prod.mk_sub_mk],
    cgt_intersection_extension_cases _ _
      (by norm_num [denominatorOf, Prod.mk_sub_mk])⟩

/-- Claim C5: with non-zero `fps` and non-zero frame intervals,
`difference_list_to_velocities` succeeds and returns, for every entry,
the non-negative magnitude
`|difference.average * scale / (frame_interval / fps)|`. -/
theorem difference_list_to_velocities_abs
    (l : List (ℚ × ImageLineDifference)) (scale fps : ℚ) (hfps : fps ≠ 0)
    (hframes : ∀ p ∈ l, p.1 ≠ 0) :
    difference_list_to_velocities l scale fps =
      .ok (l.map fun p => |p.2.average * scale / (p.1 / fps)|) := by
  induction l with
  | nil => rfl
  | cons hd tl ih =>
      obtain ⟨frames, diff⟩ := hd
      have hf : frames ≠ 0 := hframes _ (List.mem_cons_self _ _)
      have ht : frames / fps ≠ 0 := div_ne_zero hf hfps
      have htl : ∀ p ∈ tl, p.1 ≠ 0 := fun p hp =>
        hframes p (List.mem_cons_of_mem _ hp)
      simp only [difference_list_to_velocities, pyDiv, difference_to_distance,
        if_neg hfps, if_neg ht, Bind.bind, Except.bind, ih htl, List.map_cons,
        pure, Except.pure, ite_neg_eq_abs]

/-- Witness for C5 at the claim's concrete instance:
`difference.average = -4`, `scale = 2`, `frames = 5`, `fps = 10`
yields the single reported velocity `16`. -/
theorem difference_list_to_velocities_abs_witness :
    ((10 : ℚ) ≠ 0 ∧ ∀ p ∈ [((5 : ℚ), ImageLineDifference.mk (-4))], p.1 ≠ 0) ∧
    difference_list_to_velocities [((5 : ℚ), ImageLineDifference.mk (-4))] 2 10 =
      .ok [16] := by
  have hmem : ∀ p ∈ [((5 : ℚ), ImageLineDifference.mk (-4))], p.1 ≠ 0 := by
    intro p hp
    simp only [List.mem_singleton] at hp
    subst hp
    norm_num
  refine ⟨⟨by norm_num, hmem⟩, ?_⟩
  rw [difference_list_to_velocities_abs _ _ _ (by norm_num) hmem]
  norm_num

/-- Claim C6: when the list contains an entry with zero frame interval,
or `fps` is zero, `difference_list_to_velocities` raises
`ZeroDivisionError` (zero elapsed time) instead of returning a
value. -/
theorem difference_list_to_velocities_zero_division
    (l : List (ℚ × ImageLineDifference)) (scale fps frames : ℚ)
    (d : ImageLineDifference) (hmem : (frames, d) ∈ l)
    (h : fps = 0 ∨ frames = 0) :
    difference_list_to_velocities l scale fps = .error .zeroDivision := by
  induction l with
  | nil => cases hmem
  | cons hd tl ih =>
      obtain ⟨f0, d0⟩ := hd
      by_cases hfps : fps = 0
      · simp [difference_list_to_velocities, pyDiv, hfps, Bind.bind,
          Except.bind]
      · have hfr : frames = 0 := h.resolve_left hfps
        have h1 : pyDiv f0 fps = .ok (f0 / fps) := by simp [pyDiv, hfps]
        rcases List.mem_cons.mp hmem with heq | hmem2
        · injection heq with h4 h5
          have h2 : f0 / fps = 0 := by rw [← h4, hfr, zero_div]
          simp [difference_list_to_velocities, h1, Bind.bind, Except.bind,
            pyDiv, h2, hfps]
        · simp only [difference_list_to_velocities, h1, Bind.bind, Except.bind]
          by_cases h2 : f0 / fps = 0
          · simp [pyDiv, h2]
          · simp [pyDiv, h2, ih hmem2]

/-- Witness for C6: the list `[(0, diff)]` with `fps = 2 ≠ 0` but a
zero frame interval raises `ZeroDivisionError`. -/
theorem difference_list_to_velocities_zero_division_witness :
    ((0 : ℚ), ImageLineDifference.mk 3) ∈
        [((0 : ℚ), ImageLineDifference.mk 3)] ∧
    ((2 : ℚ) = 0 ∨ (0 : ℚ) = 0) ∧
    difference_list_to_velocities [((0 : ℚ), ImageLineDifference.mk 3)] 1 2 =
      .error .zeroDivision :=
  ⟨List.mem_cons_self _ _, Or.inr rfl,
    difference_list_to_velocities_zero_division _ 1 2 0 _
      (List.mem_cons_self _ _) (Or.inr rfl)⟩

/-- Claim C8: with an integer item position, `get_rect_even_dimensions`
with enforcement on returns an integer rectangle with even width and
even height that contains the scene rectangle; with enforcement off it
returns the outward-aligned integer rectangle unmodified. -/
theorem get_rect_even_dimensions_spec (rect : QRectF) (px py : ℤ) :
    (get_rect_even_dimensions rect ((px : ℚ), (py : ℚ)) true).w % 2 = 0 ∧
    (get_rect_even_dimensions rect ((px : ℚ), (py : ℚ)) true).h % 2 = 0 ∧
    rect_covers (get_rect_even_dimensions rect ((px : ℚ), (py : ℚ)) true)
      (rect.translated ((px : ℚ), (py : ℚ))) ∧
    get_rect_even_dimensions rect ((px : ℚ), (py : ℚ)) false =
      (QRectF.toAlignedRect rect).translate (px, py) := by
  have f1 : (⌊rect.x⌋ : ℚ) ≤ rect.x := Int.floor_le _
  have f2 : rect.x + rect.w ≤ (⌈rect.x + rect.w⌉ : ℚ) := Int.le_ceil _
  have f3 : (⌊rect.y⌋ : ℚ) ≤ rect.y := Int.floor_le _
  have f4 : rect.y + rect.h ≤ (⌈rect.y + rect.h⌉ : ℚ) := Int.le_ceil _
  simp only [get_rect_even_dimensions, QRectF.toAlignedRect, QRect.translate,
    QRect.setWidth, QRect.setHeight, QRectF.translated, rect_covers,
    qRound_intCast, Bool.not_true, Bool.not_false, if_true, if_false,
    Bool.false_eq_true, Bool.true_eq_false, ite_false, ite_true]
  refine ⟨?_, ?_, ?_, trivial⟩
  · split_ifs with h1 h2 <;> dsimp only <;> omega
  · split_ifs with h1 h2 <;> dsimp only <;> omega
  · split_ifs with h1 h2 h3 <;> dsimp only <;>
      refine ⟨?_, ?_, ?_, ?_⟩ <;> push_cast <;> linarith

theorem lookup_reset (items : List (String × CGTValue)) :
    (items.map fun kv =>
        if kv.1 = "results" then (kv.1, kv.2.resetResults) else kv).lookup
        "results" =
      (items.lookup "results").map CGTValue.resetResults := by
  induction items with
  | nil => rfl
  | cons hd tl ih =>
      obtain ⟨k, v⟩ := hd
      by_cases hk : k = "results"
      · subst hk
        simp [List.lookup]
      · have hbeq : ("results" == k) = false :=
          beq_eq_false_iff_ne.mpr (Ne.symm hk)
        simp only [List.map_cons]
        rw [if_neg hk]
        simp only [List.lookup, hbeq]
        exact ih

theorem getResults_reset (p : CGTProject) :
    p.reset_changed.getResults =
      p.getResults.map fun _ => (⟨false⟩ : VideoAnalysisResultsStore) := by
  unfold CGTProject.getResults CGTProject.reset_changed
  rw [lookup_reset]
  cases h : p.items.lookup "results" with
  | none => rfl
  | some v => cases v <;> rfl

theorem has_been_changed_or (p : CGTProject) :
    p.has_been_changed =
      (p.changed ||
        (p.getResults.map VideoAnalysisResultsStore.has_been_changed).getD
          false) := by
  unfold CGTProject.has_been_changed
  cases p.getResults <;> simp

/-- Claim C10: every `__setitem__` leaves `has_been_changed` true; a
fresh `CGTProject` (whose `__init__` populates the default keys through
the overridden `__setitem__`) already reports `has_been_changed`
true; among the mutating operations exactly `reset_changed`
produces a state reporting false; and a state reports false precisely
when its own flag is clear and the stored results are absent or also
report unchanged. -/
theorem cgtproject_changed_spec :
    (∀ (p : CGTProject) (k : String) (v : CGTValue),
        (p.setItem k v).has_been_changed = true) ∧
    CGTProject.init.has_been_changed = true ∧
    (∀ (p : CGTProject) (op : CGTOp),
        (CGTProject.applyOp op p).has_been_changed = false ↔ op = .resetCh) ∧
    (∀ p : CGTProject, p.has_been_changed = false ↔
        (p.changed = false ∧ ∀ r ∈ p.getResults, r.has_been_changed = false)) := by
  have hset : ∀ (p : CGTProject) (k : String) (v : CGTValue),
      (p.setItem k v).has_been_changed = true := by
    intro p k v
    rw [has_been_changed_or]
    simp [CGTProject.setItem]
  refine ⟨hset, by decide, ?_, ?_⟩
  · intro p op
    cases op with
    | setIt k v => simp [CGTProject.applyOp, hset]
    | setCh =>
        rw [CGTProject.applyOp, has_been_changed_or]
        simp [CGTProject.set_changed]
    | resetCh =>
        rw [CGTProject.applyOp, has_been_changed_or, getResults_reset]
        cases p.getResults <;>
          simp [CGTProject.reset_changed, VideoAnalysisResultsStore.has_been_changed]
  · intro p
    rw [has_been_changed_or]
    cases h : p.getResults with
    | none => simp
    | some r => simp [VideoAnalysisResultsStore.has_been_changed]

/-- Witness for C10: resetting a fresh project makes it report
unchanged. -/
theorem cgtproject_changed_spec_witness :
    (CGTProject.applyOp CGTOp.resetCh CGTProject.init).has_been_changed =
      false :=
  (cgtproject_changed_spec.2.2.1 CGTProject.init CGTOp.resetCh).mpr rfl

theorem length_pair_normR (A B : ℝ × ℝ) :
    RLineF.length ⟨A, B⟩ = normR (B - A) := rfl

theorem length_eq_normR (l : RLineF) : l.length = normR (l.p2 - l.p1) := rfl

theorem normR_neg (p : ℝ × ℝ) : normR (-p) = normR p := by
  simp only [normR, Prod.fst_neg, Prod.snd_neg]
  congr 1
  ring

theorem normR_perpP (p : ℝ × ℝ) : normR (perpP p) = normR p := by
  simp only [normR, perpP]
  congr 1
  ring

theorem normR_smul (c : ℝ) (p : ℝ × ℝ) (hc : 0 ≤ c) :
    normR (c • p) = c * normR p := by
  simp only [normR, Prod.smul_fst, Prod.smul_snd, smul_eq_mul]
  rw [show c * p.1 * (c * p.1) + c * p.2 * (c * p.2) =
    c ^ 2 * (p.1 * p.1 + p.2 * p.2) by ring]
  rw [Real.sqrt_mul (sq_nonneg c), Real.sqrt_sq hc]

theorem normalVector_eq (l : RLineF) :
    l.normalVector = ⟨l.p1, l.p1 + perpP (l.p2 - l.p1)⟩ := rfl

theorem setLength_pair (A B : ℝ × ℝ) (len : ℝ)
    (h : RLineF.length ⟨A, B⟩ ≠ 0) :
    RLineF.setLength ⟨A, B⟩ len =
      ⟨A, A + (len / RLineF.length ⟨A, B⟩) • (B - A)⟩ := by
  rw [RLineF.setLength, if_neg h]

theorem make_arrow_head_eq (l : RLineF) (h : ¬ l.length < 10)
    (hne : l.length ≠ 0) :
    make_arrow_head l 10 =
      some [l.p2,
        (l.p1 + ((l.length - 10) / l.length) • (l.p2 - l.p1)) +
          (5 / l.length) • perpP (l.p2 - l.p1),
        (l.p1 + ((l.length - 10) / l.length) • (l.p2 - l.p1)) -
          (5 / l.length) • perpP (l.p2 - l.p1)] := by
  obtain ⟨p1, p2⟩ := l
  rw [make_arrow_head, if_neg h]
  simp only [normalVector_eq, RLineF.pointAt, add_sub_cancel_left]
  set L := RLineF.length ⟨p1, p2⟩ with hL
  set d : ℝ × ℝ := p2 - p1 with hd
  set t : ℝ := (L - 10) / L with ht
  set A : ℝ × ℝ := p1 + t • d with hA
  have e1 : p1 + perpP d + t • d - A = perpP d := by
    rw [hA]
    abel
  rw [e1, neg_one_smul, ← sub_eq_add_neg]
  have hlen1 : RLineF.length ⟨A, p1 + perpP d + t • d⟩ = L := by
    rw [length_pair_normR, e1, normR_perpP, hL, length_pair_normR, ← hd]
  have hlen2 : RLineF.length ⟨A, A - perpP d⟩ = L := by
    rw [length_pair_normR, sub_sub_cancel_left, normR_neg, normR_perpP, hL,
      length_pair_normR, ← hd]
  rw [setLength_pair _ _ _ (by rw [hlen1]; exact hne),
    setLength_pair _ _ _ (by rw [hlen2]; exact hne), hlen1, hlen2, e1,
    sub_sub_cancel_left, smul_neg, ← sub_eq_add_neg]

/-- Claim C9: a line shorter than the cutoff (default 10) gets no
arrow head; a longer line gets the triangle made of `line.p2` and the
two endpoints `base ± v` of the length-5 perpendicular offshoots
(`normR v = 5`, `v` orthogonal to the line direction, one on each
side) based at the point `base` lying 10 units back from `line.p2`
along the line. -/
theorem make_arrow_head_spec (line : RLineF) :
    (line.length < 10 → make_arrow_head line 10 = none) ∧
    (10 ≤ line.length →
      ∃ v : ℝ × ℝ,
        make_arrow_head line 10 =
          some [line.p2,
            (line.p2 - (10 / line.length) • (line.p2 - line.p1)) + v,
            (line.p2 - (10 / line.length) • (line.p2 - line.p1)) - v] ∧
        normR v = 5 ∧
        dotR v (line.p2 - line.p1) = 0 ∧
        normR (line.p2 -
          (line.p2 - (10 / line.length) • (line.p2 - line.p1))) = 10) := by
  constructor
  · intro h
    rw [make_arrow_head, if_pos h]
  · intro h
    have hL0 : (0 : ℝ) < line.length := lt_of_lt_of_le (by norm_num) h
    have hne : line.length ≠ 0 := ne_of_gt hL0
    have hbase : line.p1 +
        ((line.length - 10) / line.length) • (line.p2 - line.p1) =
        line.p2 - (10 / line.length) • (line.p2 - line.p1) := by
      rw [show (line.length - 10) / line.length = 1 - 10 / line.length by
        field_simp]
      rw [sub_smul, one_smul]
      abel
    refine ⟨(5 / line.length) • perpP (line.p2 - line.p1), ?_, ?_, ?_, ?_⟩
    · rw [make_arrow_head_eq line (not_lt.mpr h) hne, hbase]
    · rw [normR_smul _ _ (by positivity), normR_perpP, ← length_eq_normR]
      field_simp
    · simp only [dotR, perpP, Prod.smul_fst, Prod.smul_snd, smul_eq_mul]
      ring
    · rw [sub_sub_cancel, normR_smul _ _ (by positivity), ← length_eq_normR]
      field_simp

/-- Witness for C9 at the vertical line `(0,0)-(0,20)` of length 20:
the cutoff hypothesis holds and the triangle exists. -/
theorem make_arrow_head_spec_witness :
    10 ≤ RLineF.length ⟨(0, 0), (0, 20)⟩ ∧
    (∃ v : ℝ × ℝ,
      make_arrow_head ⟨(0, 0), (0, 20)⟩ 10 =
        some [(0, 20),
          ((0, 20) - (10 / RLineF.length ⟨(0, 0), (0, 20)⟩) •
            ((0, 20) - (0, 0))) + v,
          ((0, 20) - (10 / RLineF.length ⟨(0, 0), (0, 20)⟩) •
            ((0, 20) - (0, 0))) - v] ∧
      normR v = 5 ∧
      dotR v ((0, 20) - (0, 0)) = 0 ∧
      normR ((0, 20) - ((0, 20) - (10 / RLineF.length ⟨(0, 0), (0, 20)⟩) •
        ((0, 20) - (0, 0)))) = 10) := by
  have hlen : RLineF.length ⟨((0 : ℝ), (0 : ℝ)), ((0 : ℝ), (20 : ℝ))⟩ = 20 := by
    simp only [RLineF.length]
    norm_num
    rw [show (400 : ℝ) = 20 ^ 2 by norm_num,
      Real.sqrt_sq (by norm_num : (0 : ℝ) ≤ 20)]
  have h10 : (10 : ℝ) ≤ RLineF.length ⟨(0, 0), (0, 20)⟩ := by
    rw [hlen]
    norm_num
  exact ⟨h10, (make_arrow_head_spec ⟨(0, 0), (0, 20)⟩).2 h10⟩
